import Mathlib

/-!
Shallow embedding of the two core stages of the jhipster-core front end:
the semantic assembler (`src/lib/parser/document_parser.js`) and the lexical
token catalog plus tokenizer (`src/lib/dsl/lexer.js`), together with proofs
about the specified behaviour.

JavaScript values are embedded as follows: possibly-`undefined` strings are
`Option String`, JS objects used as string-keyed maps are association lists
`List (String × V)` in insertion order (assignment to an existing key
overwrites in place, a new key is appended), and in-place mutation of the
input document is made explicit by returning the updated document next to
the built value.
-/

namespace JdlCore

/-- Association-list lookup, embedding a JS object property read `m[k]`
(`none` plays the role of `undefined`): the value of the first entry whose
key equals `k`. -/
def lookupAssoc {V : Type} : List (String × V) → String → Option V
  | [], _ => none
  | p :: rest, k => if p.1 = k then some p.2 else lookupAssoc rest k

/-- Association-list write, embedding a JS object property assignment
`m[k] = v`: an existing key keeps its position and gets the new value, a
fresh key is appended at the end. -/
def insertAssoc {V : Type} (m : List (String × V)) (k : String) (v : V) : List (String × V) :=
  if (lookupAssoc m k).isSome then
    m.map (fun p => if p.1 = k then (k, v) else p)
  else
    m ++ [(k, v)]

/-- Truthiness test for a possibly-undefined JS string: `undefined` and the
empty string are falsy. -/
def strFalsy (s : Option String) : Bool :=
  match s with
  | none => true
  | some t => t.isEmpty

/-- Embedding of the JS `toLowerCase()` method for the ASCII strings of
the DSL: lower-case every character.  (Defined over the character list so
that concrete instances evaluate inside the kernel.) -/
def toLowerStr (s : String) : String :=
  String.mk (s.data.map Char.toLower)

/-- Embedding of lodash `_.lowerFirst`: lower-case the first character,
leave the rest untouched. -/
def lowerFirst (s : String) : String :=
  match s.data with
  | [] => ""
  | c :: cs => String.mk (c.toLower :: cs)

/-- Embedding of lodash `_.upperFirst`: upper-case the first character. -/
def upperFirst (s : String) : String :=
  match s.data with
  | [] => ""
  | c :: cs => String.mk (c.toUpper :: cs)

/-- Word splitting used by lodash `_.camelCase` on the compact identifiers
that occur as JDL cardinality keywords: a new word starts after a
non-alphanumeric separator or at a lower-to-upper case boundary. -/
def splitWordsAux : List Char → List Char → List (List Char)
  | [], acc => if acc.isEmpty then [] else [acc.reverse]
  | c :: cs, acc =>
    if c.isAlphanum then
      if c.isUpper ∧ acc.any (fun p => p.isLower) then
        (if acc.isEmpty then [] else [acc.reverse]) ++ splitWordsAux cs [c]
      else
        splitWordsAux cs (c :: acc)
    else
      (if acc.isEmpty then [] else [acc.reverse]) ++ splitWordsAux cs []

/-- Embedding of lodash `_.camelCase` for the cardinality keywords: split
into words, lower-case the first word, capitalize the following ones. -/
def camelCase (s : String) : String :=
  let words := splitWordsAux s.data []
  match words with
  | [] => ""
  | w :: ws =>
    String.mk (w.map Char.toLower) ++
      String.join (ws.map (fun word =>
        match word with
        | [] => ""
        | c :: cs => String.mk (c.toUpper :: cs.map Char.toLower)))

/-- Modelled from the spec: `format_utils.formatComment` is not under
`src/`; the spec only says comments are "formatted" and attached verbatim
as documentation text, so the formatting is modelled as the identity on the
raw comment text (`undefined` stays `undefined`). -/
def formatComment (javadoc : Option String) : Option String :=
  javadoc

/-- Order-preserving deduplication helper (first occurrence wins). -/
def dedupKeepFirstAux : List String → List String → List String
  | [], _ => []
  | x :: xs, seen =>
    if seen.contains x then dedupKeepFirstAux xs seen
    else x :: dedupKeepFirstAux xs (x :: seen)

/-- Order-preserving deduplication, as performed by a JS `Set`. -/
def dedupKeepFirst (l : List String) : List String :=
  dedupKeepFirstAux l []

/-! Document (syntax-tree) shapes, from §6 of the spec and the reads the
assembler performs in `document_parser.js`. -/

/-- One parsed validation of a field: `{key, value, constant?}`. The value
is `Option String` because resolving a named-constant reference against a
missing constant writes `undefined` back into it. -/
structure FieldValidation where
  key : String
  value : Option String
  constant : Bool
  deriving Repr, DecidableEq

/-- One parsed field of an entity body: `{name, type, javadoc?, validations}`. -/
structure EntityField where
  name : String
  type : String
  javadoc : Option String
  validations : List FieldValidation
  deriving Repr, DecidableEq

/-- One parsed entity: `{name, tableName?, javadoc?, body}`. -/
structure DocEntity where
  name : String
  tableName : Option String
  javadoc : Option String
  body : List EntityField
  deriving Repr, DecidableEq

/-- One side of a parsed relationship: `{name, injectedfield?, required?, javadoc?}`. -/
structure RelationshipSide where
  name : String
  injectedfield : Option String
  required : Option Bool
  javadoc : Option String
  deriving Repr, DecidableEq

/-- One parsed relationship: `{cardinality, from, to}`. -/
structure DocRelationship where
  cardinality : String
  «from» : RelationshipSide
  «to» : RelationshipSide
  deriving Repr, DecidableEq

/-- Entity membership block of an application: `{entityList, excluded}`. -/
structure AppEntities where
  entityList : List String
  excluded : List String
  deriving Repr, DecidableEq

/-- One parsed application block: `{config, entities}`. -/
structure DocApplication where
  config : List (String × String)
  entities : AppEntities
  deriving Repr, DecidableEq

/-- One parsed enum: `{name, values, javadoc?}`. -/
structure DocEnum where
  name : String
  values : List String
  javadoc : Option String
  deriving Repr, DecidableEq

/-- Target/exclusion lists of an option occurrence: `{list, excluded}`. -/
structure OptionList where
  list : List String
  excluded : List String
  deriving Repr, DecidableEq

/-- The parsed JDL document, with exactly the fields the assembler reads:
applications, enums, entities, relationships, constants, the four unary
option keys and the per-binary-option maps of option-value to target lists. -/
structure Document where
  applications : List DocApplication
  enums : List DocEnum
  entities : List DocEntity
  relationships : List DocRelationship
  constants : List (String × String)
  noClient : OptionList
  noServer : OptionList
  noFluentMethod : OptionList
  filter : OptionList
  dto : List (String × OptionList)
  pagination : List (String × OptionList)
  service : List (String × OptionList)
  searchEngine : List (String × OptionList)
  microservice : List (String × OptionList)
  angularSuffix : List (String × OptionList)
  clientRootFolder : List (String × OptionList)
  deriving Repr, DecidableEq

/-! Domain object graph (the JDLObject and its parts). The `JDL*` container
classes live outside `src/`; their shapes are modelled from §3 of the spec:
plain records, with the graph owning entities and enums as name-keyed
mappings and relationships and options as ordered sequences. -/

/-- Modelled from the spec: a `JDLValidation` is a kind plus a value. -/
structure JDLValidation where
  name : String
  value : Option String
  deriving Repr, DecidableEq

/-- Modelled from the spec: a `JDLField` is a name, a declared type, a
mapping of validation kind to validation, and an optional comment. -/
structure JDLField where
  name : String
  type : String
  validations : List (String × JDLValidation)
  comment : Option String
  deriving Repr, DecidableEq

/-- Modelled from the spec: a `JDLEntity` is a name, a table name, a
mapping of field name to field, and an optional comment. -/
structure JDLEntity where
  name : String
  tableName : String
  fields : List (String × JDLField)
  comment : Option String
  deriving Repr, DecidableEq

/-- Modelled from the spec: a `JDLEnum` is a name, an ordered member list
and an optional comment. -/
structure JDLEnum where
  name : String
  values : List String
  comment : Option String
  deriving Repr, DecidableEq

/-- Modelled from the spec: a `JDLApplication` is a configuration bag plus
an ordered, deduplicated set of entity names. -/
structure JDLApplication where
  config : List (String × String)
  entities : List String
  deriving Repr, DecidableEq

/-- Modelled from the spec: a `JDLRelationship` holds its two resolved
endpoints (possibly unresolved, since §7 states this core does not guard
dangling references), the normalized cardinality kind, the per-side
injected-field names, required flags and comments. -/
structure JDLRelationship where
  «from» : Option JDLEntity
  «to» : Option JDLEntity
  type : String
  injectedFieldInFrom : Option String
  injectedFieldInTo : Option String
  isInjectedFieldInFromRequired : Option Bool
  isInjectedFieldInToRequired : Option Bool
  commentInFrom : Option String
  commentInTo : Option String
  deriving Repr, DecidableEq

/-- Modelled from the spec: an option is either unary (a flag over a target
entity list with exclusions) or binary (a named key/value pair over a
target entity list with exclusions). -/
inductive JDLOption where
  | unary (name : String) (entityNames : List String) (excludedNames : List String)
  | binary (name : String) (value : String) (entityNames : List String) (excludedNames : List String)
  deriving Repr, DecidableEq

/-- Modelled from the spec: the domain object graph root, owning
applications, name-keyed entities and enums, and ordered relationship and
option sequences. -/
structure JDLObject where
  applications : List JDLApplication
  entities : List (String × JDLEntity)
  enums : List (String × JDLEnum)
  relationships : List JDLRelationship
  options : List JDLOption
  deriving Repr, DecidableEq

/-- The configuration object handed to `parseFromConfigurationObject`:
document, applicationType, applicationName, generatorVersion. -/
structure Configuration where
  document : Option Document
  applicationType : Option String
  applicationName : String
  generatorVersion : Option String
  deriving Repr, DecidableEq

/-- Result of one assembly call: the built graph, the (mutated) document,
and the auxiliary entity-name-to-applications index.  The JS code mutates
`configuration.document` in place; the embedding returns the updated
document explicitly. -/
structure AssembleOutcome where
  jdl : JDLObject
  document : Document
  applicationsPerEntityName : List (String × List JDLApplication)
  deriving Repr, DecidableEq

/-! The assembler, function by function after `document_parser.js`. -/

/-- Embedding of `getApplicationEntities`: wildcard membership expands to
all declared entity names; a non-empty exclusion list is filtered out. -/
def getApplicationEntities (doc : Document) (application : DocApplication) : List String :=
  let applicationEntities :=
    if application.entities.entityList.contains "*" then
      doc.entities.map (·.name)
    else
      application.entities.entityList
  if application.entities.excluded.length ≠ 0 then
    applicationEntities.filter (fun entity => !(application.entities.excluded.contains entity))
  else
    applicationEntities

/-- The document-side mutation done by `fillApplications` on one
application block: a truthy generator version is written into the block's
config map under `jhipsterVersion`. -/
def mutateApplication (generatorVersion : Option String) (application : DocApplication) : DocApplication :=
  match generatorVersion with
  | some v =>
    if v.isEmpty then application
    else { application with config := insertAssoc application.config "jhipsterVersion" v }
  | none => application

/-- Embedding of `fillApplications`: per block, write the generator version
into the config, then build the `JDLApplication` from that same (mutated)
config and the resolved entity membership. -/
def fillApplications (generatorVersion : Option String) (doc : Document) :
    Document × List JDLApplication :=
  let pairs := doc.applications.map (fun application =>
    let application := mutateApplication generatorVersion application
    (application,
      JDLApplication.mk application.config (dedupKeepFirst (getApplicationEntities doc application))))
  ({ doc with applications := pairs.map (·.1) }, pairs.map (·.2))

/-- Embedding of `fillApplicationsPerEntityName`: index each application
under each entity name it owns. -/
def fillApplicationsPerEntityName (applications : List JDLApplication) :
    List (String × List JDLApplication) :=
  applications.foldl
    (fun index application =>
      application.entities.foldl
        (fun index entity =>
          insertAssoc index entity ((lookupAssoc index entity).getD [] ++ [application]))
        index)
    []

/-- Embedding of `fillEnums`: install each declared enum under its name. -/
def fillEnums (enums : List DocEnum) : List (String × JDLEnum) :=
  enums.foldl
    (fun m e => insertAssoc m e.name ⟨e.name, e.values, formatComment e.javadoc⟩)
    []

/-- Worker for `getValidations`: walk the validation list, resolving a
value flagged as a named-constant reference against the constants table
(the resolution is written back into the document's validation record), and
install each validation in the kind-keyed map. -/
def getValidationsAux (constants : List (String × String)) :
    List FieldValidation → List (String × JDLValidation) →
    List (String × JDLValidation) × List FieldValidation
  | [], acc => (acc, [])
  | v :: rest, acc =>
    let v :=
      if v.constant then
        { v with value := v.value.bind (fun s => lookupAssoc constants s) }
      else v
    let r := getValidationsAux constants rest (insertAssoc acc v.key ⟨v.key, v.value⟩)
    (r.1, v :: r.2)

/-- Embedding of `getValidations`, returning the validation map and the
mutated field.  (The call site passes `jdlObject.enums[field.type]` as a
second argument, which the JS function does not declare and never uses.) -/
def getValidations (constants : List (String × String)) (field : EntityField) :
    List (String × JDLValidation) × EntityField :=
  let r := getValidationsAux constants field.validations []
  (r.1, { field with validations := r.2 })

/-- Worker for `getFields`: lower-first-normalize each field name, skip a
field whose normalized name is `id` case-insensitively, and install every
other field (with its resolved validations) under its normalized name. -/
def getFieldsAux (constants : List (String × String)) :
    List EntityField → List (String × JDLField) →
    List (String × JDLField) × List EntityField
  | [], acc => (acc, [])
  | field :: rest, acc =>
    let fieldName := lowerFirst field.name
    if toLowerStr fieldName == "id" then
      let r := getFieldsAux constants rest acc
      (r.1, field :: r.2)
    else
      let vr := getValidations constants field
      let fieldObject : JDLField :=
        { name := fieldName
          type := field.type
          validations := vr.1
          comment := if strFalsy field.javadoc then none else formatComment field.javadoc }
      let r := getFieldsAux constants rest (insertAssoc acc fieldName fieldObject)
      (r.1, vr.2 :: r.2)

/-- Embedding of `getFields`, returning the field map and the mutated
entity body. -/
def getFields (constants : List (String × String)) (entity : DocEntity) :
    List (String × JDLField) × DocEntity :=
  let r := getFieldsAux constants entity.body []
  (r.1, { entity with body := r.2 })

/-- Embedding of `fillClassAndItsFields`: default a falsy table name to the
entity's own name (a document mutation), then build the `JDLEntity`. -/
def fillClassAndItsFields (constants : List (String × String)) (entity : DocEntity) :
    DocEntity × JDLEntity :=
  let entity :=
    { entity with
      tableName := if strFalsy entity.tableName then some entity.name else entity.tableName }
  let r := getFields constants entity
  (r.2,
    { name := entity.name
      tableName := entity.tableName.getD ""
      fields := r.1
      comment := formatComment entity.javadoc })

/-- Worker for `fillClassesAndFields`: install every declared entity, in
declaration order, into the name-keyed entity map, collecting the mutated
document entities. -/
def fillClassesAndFieldsAux (constants : List (String × String)) :
    List DocEntity → List (String × JDLEntity) →
    List DocEntity × List (String × JDLEntity)
  | [], acc => ([], acc)
  | entity :: rest, acc =>
    let r := fillClassAndItsFields constants entity
    let next := fillClassesAndFieldsAux constants rest (insertAssoc acc r.2.name r.2)
    (r.1 :: next.1, next.2)

/-- The implicit `User` entity synthesized by `addUserEntity`: name `User`,
table name `jhi_user`, no fields. -/
def userEntity : JDLEntity :=
  { name := "User", tableName := "jhi_user", fields := [], comment := none }

/-- Embedding of `addUserEntityIfNeedBe`: if some relationship targets an
entity named `User` case-insensitively and no entity keyed exactly `User`
is installed, install the implicit `User` entity. -/
def addUserEntityIfNeedBe (relationships : List DocRelationship)
    (entities : List (String × JDLEntity)) : List (String × JDLEntity) :=
  let relationshipsToTheUserEntity :=
    relationships.filter (fun r => toLowerStr r.«to».name == "user")
  if !relationshipsToTheUserEntity.isEmpty && (lookupAssoc entities "User").isNone then
    insertAssoc entities "User" userEntity
  else
    entities

/-- The per-relationship step of `fillAssociations`: when neither side's
injected-field name is truthy, the from side's injected-field name is set
to the lower-first form of the from entity's name (a document mutation);
then the `JDLRelationship` is built, resolving both endpoints by exact name
in the installed entity map. -/
def processRelationship (entities : List (String × JDLEntity)) (relationship : DocRelationship) :
    DocRelationship × JDLRelationship :=
  let relationship :=
    if strFalsy relationship.«from».injectedfield && strFalsy relationship.«to».injectedfield then
      { relationship with
        «from» := { relationship.«from» with
          injectedfield := some (lowerFirst relationship.«from».name) } }
    else relationship
  (relationship,
    { «from» := lookupAssoc entities relationship.«from».name
      «to» := lookupAssoc entities relationship.«to».name
      type := upperFirst (camelCase relationship.cardinality)
      injectedFieldInFrom := relationship.«from».injectedfield
      injectedFieldInTo := relationship.«to».injectedfield
      isInjectedFieldInFromRequired := relationship.«from».required
      isInjectedFieldInToRequired := relationship.«to».required
      commentInFrom := formatComment relationship.«from».javadoc
      commentInTo := formatComment relationship.«to».javadoc })

/-- Embedding of `fillAssociations`, returning the mutated relationship
records and the built `JDLRelationship` sequence. -/
def fillAssociations (entities : List (String × JDLEntity))
    (relationships : List DocRelationship) :
    List DocRelationship × List JDLRelationship :=
  let pairs := relationships.map (processRelationship entities)
  (pairs.map (·.1), pairs.map (·.2))

/-- Modelled from the spec: the unary option names used by
`fillUnaryOptions` (`UnaryOptions` lives outside `src/`). -/
def SKIP_CLIENT : String := "skipClient"

/-- Modelled from the spec: the `skipServer` unary option name. -/
def SKIP_SERVER : String := "skipServer"

/-- Modelled from the spec: the `noFluentMethod` unary option name. -/
def NO_FLUENT_METHOD : String := "noFluentMethod"

/-- Modelled from the spec: the `filter` unary option name. -/
def FILTER : String := "filter"

/-- Modelled from the spec: the `microservice` application type constant
(`ApplicationTypes` lives outside `src/`). -/
def MICROSERVICE : String := "microservice"

/-- Modelled from the spec: the `clientRootFolder` binary option name. -/
def CLIENT_ROOT_FOLDER : String := "clientRootFolder"

/-- Modelled from the spec: the values of `BinaryOptions.Options`
(`binary_options.js` lives outside `src/`); the member set follows the
binary option keys the spec and the token catalog name: dto, pagination,
service, searchEngine, microservice, angularSuffix, clientRootFolder. -/
def binaryOptionNames : List String :=
  ["dto", "pagination", "service", "searchEngine", "microservice",
   "angularSuffix", "clientRootFolder"]

/-- The document read `configuration.document[optionValue]` for a binary
option name: the map of option value to target/exclusion lists. -/
def binaryOptionMap (doc : Document) (optionName : String) : List (String × OptionList) :=
  if optionName == "dto" then doc.dto
  else if optionName == "pagination" then doc.pagination
  else if optionName == "service" then doc.service
  else if optionName == "searchEngine" then doc.searchEngine
  else if optionName == "microservice" then doc.microservice
  else if optionName == "angularSuffix" then doc.angularSuffix
  else if optionName == "clientRootFolder" then doc.clientRootFolder
  else []

/-- Embedding of `fillUnaryOptions`: each of the four unary options is
added only when its target list is non-empty. -/
def fillUnaryOptions (doc : Document) : List JDLOption :=
  (if doc.noClient.list.length ≠ 0 then
    [JDLOption.unary SKIP_CLIENT doc.noClient.list doc.noClient.excluded] else []) ++
  (if doc.noServer.list.length ≠ 0 then
    [JDLOption.unary SKIP_SERVER doc.noServer.list doc.noServer.excluded] else []) ++
  (if doc.noFluentMethod.list.length ≠ 0 then
    [JDLOption.unary NO_FLUENT_METHOD doc.noFluentMethod.list doc.noFluentMethod.excluded] else []) ++
  (if doc.filter.list.length ≠ 0 then
    [JDLOption.unary FILTER doc.filter.list doc.filter.excluded] else [])

/-- Embedding of `fillBinaryOptions`: one option per (name, value) entry of
each binary option map, except that `clientRootFolder` entries are skipped
(with a warning) when the application type is microservice. -/
def fillBinaryOptions (applicationType : Option String) (doc : Document) : List JDLOption :=
  binaryOptionNames.flatMap (fun optionName =>
    (binaryOptionMap doc optionName).filterMap (fun entry =>
      if applicationType == some MICROSERVICE && optionName == CLIENT_ROOT_FOLDER then
        none
      else
        some (JDLOption.binary optionName entry.1 entry.2.list entry.2.excluded)))

/-- Embedding of `fillOptions` (including `globallyAddMicroserviceOption`):
unary options, then binary options, then — when the application type is
microservice and the document's microservice map is empty — one global
binary microservice option over every declared entity name. -/
def fillOptions (applicationType : Option String) (applicationName : String)
    (doc : Document) : List JDLOption :=
  fillUnaryOptions doc ++ fillBinaryOptions applicationType doc ++
  (if applicationType == some MICROSERVICE && doc.microservice.length == 0 then
    [JDLOption.binary MICROSERVICE applicationName (doc.entities.map (·.name)) []]
  else [])

/-- The assembly pipeline run on a present document, in the source order:
applications, enums, entities and fields (then the implicit `User`),
relationships, options.  Document mutations are threaded explicitly. -/
def assembleFromDocument (doc : Document) (applicationType : Option String)
    (applicationName : String) (generatorVersion : Option String) : AssembleOutcome :=
  let appsR := fillApplications generatorVersion doc
  let doc := appsR.1
  let jdlApplications := appsR.2
  let applicationsPerEntityName := fillApplicationsPerEntityName jdlApplications
  let jdlEnums := fillEnums doc.enums
  let classesR := fillClassesAndFieldsAux doc.constants doc.entities []
  let doc := { doc with entities := classesR.1 }
  let jdlEntities := addUserEntityIfNeedBe doc.relationships classesR.2
  let assocR := fillAssociations jdlEntities doc.relationships
  let doc := { doc with relationships := assocR.1 }
  let jdlOptions := fillOptions applicationType applicationName doc
  { jdl :=
      { applications := jdlApplications
        entities := jdlEntities
        enums := jdlEnums
        relationships := assocR.2
        options := jdlOptions }
    document := doc
    applicationsPerEntityName := applicationsPerEntityName }

/-- The error message of the missing-input failure in
`parseFromConfigurationObject`. -/
def missingInputMessage : String := "The parsed JDL content must be passed."

/-- Embedding of `parseFromConfigurationObject`: fail when the
configuration carries no document, otherwise run the assembly pipeline. -/
def parseFromConfigurationObject (configuration : Configuration) :
    Except String AssembleOutcome :=
  match configuration.document with
  | none => Except.error missingInputMessage
  | some doc =>
    Except.ok (assembleFromDocument doc configuration.applicationType
      configuration.applicationName configuration.generatorVersion)

/-! Lexical model, after `src/lib/dsl/lexer.js`: the token catalog built by
the local `createToken` helper (which wires the keyword/identifier
disambiguation) and a tokenizer with chevrotain's matching discipline
(first registered token that matches wins, except that a match whose
`longer_alt` token matches a strictly longer prefix yields to it). -/

/-- Shapes of the token patterns of the catalog.  String patterns carry
their literal text; each regex pattern of the source gets a dedicated
constructor whose matcher below mirrors the regex:
`wsPat` for whitespace runs, `commentPat` for lazy block comments
delimited by slash-star and star-slash, `regexLitPat` for slash-delimited
regex literals, `intPat` for optionally-signed integers, `stringPat` for
plain double-quoted strings, `namePat` for the generic identifier pattern
(a letter or underscore, then letters, underscores, hyphens or digits);
`na` is `Lexer.NA` (never matches). -/
inductive TokenPattern where
  | str (s : String)
  | wsPat
  | commentPat
  | regexLitPat
  | intPat
  | stringPat
  | namePat
  | na
  deriving Repr, DecidableEq

/-- One entry of the token catalog: kind name, pattern, category names,
optional fallback kind (`longer_alt`), and whether its matches are dropped
from the emitted sequence (`Lexer.SKIPPED`). -/
structure TokenType where
  name : String
  pattern : TokenPattern
  categories : List String
  longerAlt : Option String
  skipped : Bool
  deriving Repr, DecidableEq

/-- Embedding of the unanchored JS test `namePattern.test(pattern)`: true
iff some position of the string starts a match of the generic-identifier
pattern, i.e. iff the string contains a letter or an underscore. -/
def namePatternTest (s : String) : Bool :=
  s.data.any (fun c => c.isAlpha || c == '_')

/-- Embedding of the local `createToken` helper of the lexer: a token whose
pattern is a string matched by the generic-identifier pattern gets `NAME`
as its fallback kind and the `KEYWORD` category appended (or as its sole
category when it declared none); every other token is registered as is. -/
def createToken (name : String) (pattern : TokenPattern) (categories : List String) : TokenType :=
  match pattern with
  | TokenPattern.str s =>
    if namePatternTest s then
      { name := name
        pattern := pattern
        categories := if categories.isEmpty then ["KEYWORD"] else categories ++ ["KEYWORD"]
        longerAlt := some "NAME"
        skipped := false }
    else
      { name := name, pattern := pattern, categories := categories,
        longerAlt := none, skipped := false }
  | _ =>
    { name := name, pattern := pattern, categories := categories,
      longerAlt := none, skipped := false }

/-- The `NAME` token, created directly through chevrotain (so without the
helper's keyword wiring) and appended to the catalog after every keyword. -/
def nameToken : TokenType :=
  { name := "NAME", pattern := TokenPattern.namePat, categories := [],
    longerAlt := none, skipped := false }

/-- The `KEYWORD` category token, created directly through chevrotain: no
own pattern (`Lexer.NA`), fallback `NAME`, member of the `NAME` category.
It is never entered into the exported `tokens` map. -/
def keywordToken : TokenType :=
  { name := "KEYWORD", pattern := TokenPattern.na, categories := ["NAME"],
    longerAlt := some "NAME", skipped := false }

/-- The token catalog, in the registration order of the source's `tokens`
map (`_.values(tokens)` preserves insertion order); `NAME` comes last. -/
def jdlTokens : List TokenType :=
  [ createToken "BOOLEAN" TokenPattern.na [],
    createToken "CONFIG_KEY" TokenPattern.na [],
    { createToken "WHITESPACE" TokenPattern.wsPat [] with skipped := true },
    createToken "COMMENT" TokenPattern.commentPat [],
    createToken "CONFIG" (TokenPattern.str "config") [],
    createToken "ENTITIES" (TokenPattern.str "entities") [],
    createToken "BASE_NAME" (TokenPattern.str "baseName") ["CONFIG_KEY"],
    createToken "PATH" (TokenPattern.str "path") ["CONFIG_KEY"],
    createToken "PACKAGE_NAME" (TokenPattern.str "packageName") ["CONFIG_KEY"],
    createToken "AUTHENTICATION_TYPE" (TokenPattern.str "authenticationType") ["CONFIG_KEY"],
    createToken "HIBERNATE_CACHE" (TokenPattern.str "hibernateCache") ["CONFIG_KEY"],
    createToken "CLUSTERED_HTTP_SESSION" (TokenPattern.str "clusteredHttpSession") ["CONFIG_KEY"],
    createToken "WEBSOCKET" (TokenPattern.str "websocket") ["CONFIG_KEY"],
    createToken "DATABASE_TYPE" (TokenPattern.str "databaseType") ["CONFIG_KEY"],
    createToken "DEV_DATABASE_TYPE" (TokenPattern.str "devDatabaseType") ["CONFIG_KEY"],
    createToken "PROD_DATABASE_TYPE" (TokenPattern.str "prodDatabaseType") ["CONFIG_KEY"],
    createToken "USE_COMPASS" (TokenPattern.str "useCompass") ["CONFIG_KEY"],
    createToken "BUILD_TOOL" (TokenPattern.str "buildTool") ["CONFIG_KEY"],
    createToken "SEARCH_ENGINE" (TokenPattern.str "searchEngine") ["CONFIG_KEY"],
    createToken "ENABLE_TRANSLATION" (TokenPattern.str "enableTranslation") ["CONFIG_KEY"],
    createToken "APPLICATION_TYPE" (TokenPattern.str "applicationType") ["CONFIG_KEY"],
    createToken "APPLICATION" (TokenPattern.str "application") [],
    createToken "TEST_FRAMEWORK" (TokenPattern.str "testFrameworks") ["CONFIG_KEY"],
    createToken "LANGUAGES" (TokenPattern.str "languages") ["CONFIG_KEY"],
    createToken "SERVER_PORT" (TokenPattern.str "serverPort") ["CONFIG_KEY"],
    createToken "ENABLE_SOCIAL_SIGN_IN" (TokenPattern.str "enableSocialSignIn") ["CONFIG_KEY"],
    createToken "USE_SASS" (TokenPattern.str "useSass") ["CONFIG_KEY"],
    createToken "JHI_PREFIX" (TokenPattern.str "jhiPrefix") ["CONFIG_KEY"],
    createToken "MESSAGE_BROKER" (TokenPattern.str "messageBroker") ["CONFIG_KEY"],
    createToken "SERVICE_DISCOVERY_TYPE" (TokenPattern.str "serviceDiscoveryType") ["CONFIG_KEY"],
    createToken "CLIENT_PACKAGE_MANAGER" (TokenPattern.str "clientPackageManager") ["CONFIG_KEY"],
    createToken "CLIENT_FRAMEWORK" (TokenPattern.str "clientFramework") ["CONFIG_KEY"],
    createToken "CLIENT_ROOT_FOLDER" (TokenPattern.str "clientRootFolder") [],
    createToken "NATIVE_LANGUAGE" (TokenPattern.str "nativeLanguage") ["CONFIG_KEY"],
    createToken "FRONT_END_BUILDER" (TokenPattern.str "frontendBuilder") ["CONFIG_KEY"],
    createToken "SKIP_USER_MANAGEMENT" (TokenPattern.str "skipUserManagement") ["CONFIG_KEY"],
    createToken "ENABLE_SWAGGER_CODEGEN" (TokenPattern.str "enableSwaggerCodegen") [],
    createToken "TRUE" (TokenPattern.str "true") ["BOOLEAN"],
    createToken "FALSE" (TokenPattern.str "false") ["BOOLEAN"],
    createToken "ENTITY" (TokenPattern.str "entity") [],
    createToken "RELATIONSHIP" (TokenPattern.str "relationship") [],
    createToken "ENUM" (TokenPattern.str "enum") [],
    createToken "ONE_TO_ONE" (TokenPattern.str "OneToOne") [],
    createToken "ONE_TO_MANY" (TokenPattern.str "OneToMany") [],
    createToken "MANY_TO_ONE" (TokenPattern.str "ManyToOne") [],
    createToken "MANY_TO_MANY" (TokenPattern.str "ManyToMany") [],
    createToken "TO" (TokenPattern.str "to") [],
    createToken "ALL" (TokenPattern.str "all") [],
    createToken "STAR" (TokenPattern.str "*") [],
    createToken "WITH" (TokenPattern.str "with") [],
    createToken "EXCEPT" (TokenPattern.str "except") [],
    createToken "NO_FLUENT_METHOD" (TokenPattern.str "noFluentMethod") [],
    createToken "DTO" (TokenPattern.str "dto") [],
    createToken "PAGINATE" (TokenPattern.str "paginate") [],
    createToken "SERVICE" (TokenPattern.str "service") [],
    createToken "MICROSERVICE" (TokenPattern.str "microservice") [],
    createToken "SEARCH" (TokenPattern.str "search") [],
    createToken "SKIP_CLIENT" (TokenPattern.str "skipClient") ["CONFIG_KEY"],
    createToken "SKIP_SERVER" (TokenPattern.str "skipServer") ["CONFIG_KEY"],
    createToken "ANGULAR_SUFFIX" (TokenPattern.str "angularSuffix") [],
    createToken "FILTER" (TokenPattern.str "filter") [],
    createToken "REQUIRED" (TokenPattern.str "required") [],
    createToken "MIN_MAX_KEYWORD" TokenPattern.na ["KEYWORD"],
    createToken "MINLENGTH" (TokenPattern.str "minlength") ["MIN_MAX_KEYWORD"],
    createToken "MAXLENGTH" (TokenPattern.str "maxlength") ["MIN_MAX_KEYWORD"],
    createToken "MINBYTES" (TokenPattern.str "minbytes") ["MIN_MAX_KEYWORD"],
    createToken "MAXBYTES" (TokenPattern.str "maxbytes") ["MIN_MAX_KEYWORD"],
    createToken "MAX" (TokenPattern.str "max") ["MIN_MAX_KEYWORD"],
    createToken "MIN" (TokenPattern.str "min") ["MIN_MAX_KEYWORD"],
    createToken "PATTERN" (TokenPattern.str "pattern") [],
    createToken "REGEX" TokenPattern.regexLitPat [],
    createToken "INTEGER" TokenPattern.intPat [],
    createToken "STRING" TokenPattern.stringPat [],
    createToken "LPAREN" (TokenPattern.str "(") [],
    createToken "RPAREN" (TokenPattern.str ")") [],
    createToken "LCURLY" (TokenPattern.str "\x7b") [],
    createToken "RCURLY" (TokenPattern.str "\x7d") [],
    createToken "LSQUARE" (TokenPattern.str "[") [],
    createToken "RSQUARE" (TokenPattern.str "]") [],
    createToken "COMMA" (TokenPattern.str ",") [],
    createToken "EQUALS" (TokenPattern.str "=") [],
    createToken "DOT" (TokenPattern.str ".") [],
    nameToken ]

/-- The whitespace class of the JS `\s` character class, restricted to its
ASCII members (the DSL's surface syntax is ASCII, per §6 of the spec). -/
def isJsWhitespace (c : Char) : Bool :=
  c == ' ' || c == '\t' || c == '\n' || c == '\r' || c == '\x0b' || c == '\x0c'

/-- A character of the generic-identifier pattern's tail class
`[a-zA-Z_\-\d]`. -/
def isNameTailChar (c : Char) : Bool :=
  c.isAlpha || c.isDigit || c == '_' || c == '-'

/-- Length of the lazy block-comment tail: the distance to (and including)
the first star-slash in the input, if any. -/
def commentCloseLen : List Char → Option Nat
  | [] => none
  | '*' :: '/' :: _ => some 2
  | _ :: rest => (commentCloseLen rest).map (· + 1)

/-- Anchored match length of a token pattern at the start of the input,
mirroring each source pattern. -/
def matchLen (pattern : TokenPattern) (input : List Char) : Option Nat :=
  match pattern with
  | TokenPattern.str s =>
    if s.data.isPrefixOf input then some s.data.length else none
  | TokenPattern.wsPat =>
    let n := (input.takeWhile isJsWhitespace).length
    if n == 0 then none else some n
  | TokenPattern.commentPat =>
    match input with
    | '/' :: '*' :: rest => (commentCloseLen rest).map (· + 2)
    | _ => none
  | TokenPattern.regexLitPat =>
    match input with
    | '/' :: rest =>
      let body := rest.takeWhile (fun c => !(c == '\n' || c == '\r' || c == '/'))
      match rest.drop body.length with
      | '/' :: _ => some (body.length + 2)
      | _ => none
    | _ => none
  | TokenPattern.intPat =>
    match input with
    | '-' :: rest =>
      let n := (rest.takeWhile Char.isDigit).length
      if n == 0 then none else some (n + 1)
    | _ =>
      let n := (input.takeWhile Char.isDigit).length
      if n == 0 then none else some n
  | TokenPattern.stringPat =>
    match input with
    | '"' :: rest =>
      let body := rest.takeWhile (fun c => !(c == '"'))
      match rest.drop body.length with
      | '"' :: _ => some (body.length + 2)
      | _ => none
    | _ => none
  | TokenPattern.namePat =>
    match input with
    | c :: rest =>
      if c.isAlpha || c == '_' then
        some ((rest.takeWhile isNameTailChar).length + 1)
      else none
    | [] => none
  | TokenPattern.na => none

/-- One emitted token: its kind name and matched text. -/
structure Token where
  kind : String
  image : String
  deriving Repr, DecidableEq

/-- First registered token whose pattern matches at the current position. -/
def findMatch : List TokenType → List Char → Option (TokenType × Nat)
  | [], _ => none
  | t :: rest, input =>
    match matchLen t.pattern input with
    | some n => some (t, n)
    | none => findMatch rest input

/-- Chevrotain's `longer_alt` rule: a match yields to its fallback token
when that token matches a strictly longer prefix at the same position. -/
def applyLongerAlt (all : List TokenType) (t : TokenType) (n : Nat)
    (input : List Char) : TokenType × Nat :=
  match t.longerAlt with
  | none => (t, n)
  | some altName =>
    match all.find? (fun u => u.name == altName) with
    | none => (t, n)
    | some alt =>
      match matchLen alt.pattern input with
      | some m => if n < m then (alt, m) else (t, n)
      | none => (t, n)

/-- Fuelled tokenization loop: match, apply the fallback rule, drop skipped
matches, and fail with a lexical error when no registered token matches. -/
def tokenizeAux (all : List TokenType) : Nat → List Char → Except String (List Token)
  | _, [] => Except.ok []
  | 0, _ => Except.error "lexer made no progress"
  | Nat.succ fuel, input =>
    match findMatch all input with
    | none => Except.error ("unexpected character: " ++ String.mk (input.take 1))
    | some (t, n) =>
      let r := applyLongerAlt all t n input
      match tokenizeAux all fuel (input.drop r.2) with
      | Except.error e => Except.error e
      | Except.ok toks =>
        if r.1.skipped then Except.ok toks
        else Except.ok ({ kind := r.1.name, image := String.mk (input.take r.2) } :: toks)

/-- The tokenizer over the JDL token catalog (every pattern consumes at
least one character, so the input length bounds the number of steps). -/
def tokenize (text : String) : Except String (List Token) :=
  tokenizeAux jdlTokens (text.data.length + 1) text.data

/-! Helper lemmas about the association-list embedding of JS objects. -/

theorem lookupAssoc_nil {V : Type} (k : String) :
    lookupAssoc ([] : List (String × V)) k = none := rfl

theorem lookupAssoc_cons {V : Type} (p : String × V) (m : List (String × V)) (k : String) :
    lookupAssoc (p :: m) k = if p.1 = k then some p.2 else lookupAssoc m k := rfl

theorem lookupAssoc_overwrite_keep {V : Type} (m : List (String × V)) (k k' : String) (v : V)
    (hne : k' ≠ k) :
    lookupAssoc (m.map (fun p => if p.1 = k then (k, v) else p)) k' = lookupAssoc m k' := by
  induction m with
  | nil => rfl
  | cons p rest ih =>
    by_cases hp : p.1 = k
    · simp [lookupAssoc_cons, hp, Ne.symm hne, ih]
    · simp [lookupAssoc_cons, hp, ih]

theorem lookupAssoc_overwrite_hit {V : Type} (m : List (String × V)) (k : String) (v : V)
    (h : (lookupAssoc m k).isSome = true) :
    lookupAssoc (m.map (fun p => if p.1 = k then (k, v) else p)) k = some v := by
  induction m with
  | nil => simp [lookupAssoc_nil] at h
  | cons p rest ih =>
    by_cases hp : p.1 = k
    · simp [lookupAssoc_cons, hp]
    · rw [lookupAssoc_cons, if_neg hp] at h
      simp [lookupAssoc_cons, hp, ih h]

theorem lookupAssoc_append_fresh {V : Type} (m : List (String × V)) (k k' : String) (v : V)
    (h : lookupAssoc m k = none) :
    lookupAssoc (m ++ [(k, v)]) k' = if k' = k then some v else lookupAssoc m k' := by
  induction m with
  | nil =>
    by_cases hk : k' = k
    · simp [lookupAssoc_cons, hk]
    · have hk' : ¬(k = k') := fun h' => hk h'.symm
      simp [lookupAssoc_cons, hk, hk']
  | cons p rest ih =>
    rw [lookupAssoc_cons] at h
    by_cases hp : p.1 = k
    · simp [hp] at h
    · rw [if_neg hp] at h
      by_cases hk : k' = k
      · subst hk
        rw [List.cons_append, lookupAssoc_cons, if_neg hp, ih h]
        simp
      · by_cases hpk : p.1 = k'
        · simp [lookupAssoc_cons, hpk, hk]
        · simp [lookupAssoc_cons, hpk, hk, ih h]

/-- Main characterization of the JS object assignment embedding: after
`m[k] = v`, reading `k` gives `v` and every other key is unchanged. -/
theorem lookupAssoc_insertAssoc {V : Type} (m : List (String × V)) (k k' : String) (v : V) :
    lookupAssoc (insertAssoc m k v) k' = if k' = k then some v else lookupAssoc m k' := by
  unfold insertAssoc
  by_cases hs : (lookupAssoc m k).isSome = true
  · rw [if_pos hs]
    by_cases hk : k' = k
    · subst hk; simp [lookupAssoc_overwrite_hit m k' v hs]
    · simp [lookupAssoc_overwrite_keep m k k' v hk, hk]
  · rw [if_neg hs]
    exact lookupAssoc_append_fresh m k k' v (by
      cases hh : lookupAssoc m k with
      | none => rfl
      | some w => rw [hh] at hs; simp at hs)

/-- When the key is fresh, the assignment is an append at the end. -/
theorem insertAssoc_of_fresh {V : Type} (m : List (String × V)) (k : String) (v : V)
    (h : lookupAssoc m k = none) : insertAssoc m k v = m ++ [(k, v)] := by
  unfold insertAssoc
  rw [h]
  simp

theorem lookupAssoc_isSome_insertAssoc {V : Type} (m : List (String × V)) (k k' : String)
    (v : V) (h : (lookupAssoc m k').isSome = true) :
    (lookupAssoc (insertAssoc m k v) k').isSome = true := by
  rw [lookupAssoc_insertAssoc]
  by_cases hk : k' = k <;> simp [hk, h]

/-! Structure lemmas about the assembler pipeline. -/

theorem mutateApplication_entities (gv : Option String) (app : DocApplication) :
    (mutateApplication gv app).entities = app.entities := by
  unfold mutateApplication
  cases gv with
  | none => rfl
  | some v => by_cases h : v.isEmpty <;> simp [h]

theorem getApplicationEntities_congr (doc : Document) (a b : DocApplication)
    (h : a.entities = b.entities) :
    getApplicationEntities doc a = getApplicationEntities doc b := by
  unfold getApplicationEntities
  rw [h]

theorem fillApplications_fst (gv : Option String) (doc : Document) :
    (fillApplications gv doc).1 =
      { doc with applications := doc.applications.map (mutateApplication gv) } := by
  unfold fillApplications
  simp [List.map_map, Function.comp]

theorem fillApplications_snd (gv : Option String) (doc : Document) :
    (fillApplications gv doc).2 = doc.applications.map (fun app =>
      JDLApplication.mk (mutateApplication gv app).config
        (dedupKeepFirst (getApplicationEntities doc (mutateApplication gv app)))) := by
  unfold fillApplications
  simp [List.map_map, Function.comp]

theorem fillClassAndItsFields_fst_name (cs : List (String × String)) (e : DocEntity) :
    (fillClassAndItsFields cs e).1.name = e.name := rfl

theorem fillClassAndItsFields_fst_tableName (cs : List (String × String)) (e : DocEntity) :
    (fillClassAndItsFields cs e).1.tableName =
      if strFalsy e.tableName then some e.name else e.tableName := rfl

theorem fillClassAndItsFields_snd_name (cs : List (String × String)) (e : DocEntity) :
    (fillClassAndItsFields cs e).2.name = e.name := rfl

theorem fillClassAndItsFields_snd_fields (cs : List (String × String)) (e : DocEntity) :
    (fillClassAndItsFields cs e).2.fields =
      (getFields cs { e with
        tableName := if strFalsy e.tableName then some e.name else e.tableName }).1 := rfl

theorem fillClassesAndFieldsAux_fst (cs : List (String × String)) (es : List DocEntity) :
    ∀ acc, (fillClassesAndFieldsAux cs es acc).1 =
      es.map (fun e => (fillClassAndItsFields cs e).1) := by
  induction es with
  | nil => intro acc; rfl
  | cons e rest ih =>
    intro acc
    unfold fillClassesAndFieldsAux
    simp [ih]

theorem fillClassesAndFieldsAux_names (cs : List (String × String)) (es : List DocEntity) :
    ((fillClassesAndFieldsAux cs es []).1.map (·.name)) = es.map (·.name) := by
  rw [fillClassesAndFieldsAux_fst]
  rw [List.map_map]
  exact List.map_congr_left (fun e _ => fillClassAndItsFields_fst_name cs e)

theorem fillClassesAndFieldsAux_lookup_none (cs : List (String × String)) (k : String) :
    ∀ (es : List DocEntity) (acc : List (String × JDLEntity)),
      (∀ e ∈ es, e.name ≠ k) → lookupAssoc acc k = none →
      lookupAssoc (fillClassesAndFieldsAux cs es acc).2 k = none := by
  intro es
  induction es with
  | nil => intro acc _ hacc; exact hacc
  | cons e rest ih =>
    intro acc hnames hacc
    unfold fillClassesAndFieldsAux
    simp only
    refine ih _ (fun x hx => hnames x (List.mem_cons_of_mem e hx)) ?_
    rw [lookupAssoc_insertAssoc]
    have hne : k ≠ (fillClassAndItsFields cs e).2.name := by
      rw [fillClassAndItsFields_snd_name]
      exact fun h => (hnames e (List.mem_cons_self e rest)) h.symm
    rw [if_neg hne]
    exact hacc

theorem fillAssociations_fst (ents : List (String × JDLEntity))
    (rels : List DocRelationship) :
    (fillAssociations ents rels).1 = rels.map (fun r => (processRelationship ents r).1) := by
  unfold fillAssociations
  simp [List.map_map, Function.comp]

theorem fillAssociations_snd (ents : List (String × JDLEntity))
    (rels : List DocRelationship) :
    (fillAssociations ents rels).2 = rels.map (fun r => (processRelationship ents r).2) := by
  unfold fillAssociations
  simp [List.map_map, Function.comp]

theorem processRelationship_snd_to (ents : List (String × JDLEntity))
    (r : DocRelationship) :
    (processRelationship ents r).2.«to» = lookupAssoc ents r.«to».name := by
  unfold processRelationship
  by_cases h : strFalsy r.«from».injectedfield && strFalsy r.«to».injectedfield <;> simp [h]

theorem processRelationship_injected (ents : List (String × JDLEntity))
    (r : DocRelationship) (h1 : strFalsy r.«from».injectedfield = true)
    (h2 : strFalsy r.«to».injectedfield = true) :
    (processRelationship ents r).1.«from».injectedfield = some (lowerFirst r.«from».name) ∧
    (processRelationship ents r).2.injectedFieldInFrom = some (lowerFirst r.«from».name) ∧
    (processRelationship ents r).2.injectedFieldInTo = r.«to».injectedfield := by
  unfold processRelationship
  simp [h1, h2]

/-! Lemmas about the field map built by `getFields`. -/

theorem getFields_fields_eq (cs : List (String × String)) (e : DocEntity) :
    (fillClassAndItsFields cs e).2.fields = (getFieldsAux cs e.body []).1 := rfl

theorem getFieldsAux_id_none (cs : List (String × String)) (K : String)
    (hK : toLowerStr K = "id") :
    ∀ (body : List EntityField) (acc : List (String × JDLField)),
      lookupAssoc acc K = none → lookupAssoc (getFieldsAux cs body acc).1 K = none := by
  intro body
  induction body with
  | nil => intro acc h; exact h
  | cons field rest ih =>
    intro acc hacc
    unfold getFieldsAux
    by_cases hid : (toLowerStr (lowerFirst field.name) == "id") = true
    · simp only [hid, if_true]
      exact ih acc hacc
    · have hid' : (toLowerStr (lowerFirst field.name) == "id") = false := by
        cases hh : toLowerStr (lowerFirst field.name) == "id" with
        | false => rfl
        | true => exact absurd hh hid
      simp only [hid', Bool.false_eq_true, if_false]
      refine ih _ ?_
      rw [lookupAssoc_insertAssoc]
      have hne : K ≠ lowerFirst field.name := by
        intro hEq
        apply hid
        rw [beq_iff_eq, ← hEq, hK]
      rw [if_neg hne]
      exact hacc

theorem getFieldsAux_isSome_mono (cs : List (String × String)) (K : String) :
    ∀ (body : List EntityField) (acc : List (String × JDLField)),
      (lookupAssoc acc K).isSome = true →
      (lookupAssoc (getFieldsAux cs body acc).1 K).isSome = true := by
  intro body
  induction body with
  | nil => intro acc h; exact h
  | cons field rest ih =>
    intro acc hacc
    unfold getFieldsAux
    by_cases hid : (toLowerStr (lowerFirst field.name) == "id") = true
    · simp only [hid, if_true]
      exact ih acc hacc
    · have hid' : (toLowerStr (lowerFirst field.name) == "id") = false := by
        cases hh : toLowerStr (lowerFirst field.name) == "id" with
        | false => rfl
        | true => exact absurd hh hid
      simp only [hid', Bool.false_eq_true, if_false]
      exact ih _ (lookupAssoc_isSome_insertAssoc _ _ _ _ hacc)

/-- Invariant of the field map: every stored field object carries its own
key as its name. -/
def goodFieldMap (m : List (String × JDLField)) : Prop :=
  ∀ (k : String) (fd : JDLField), lookupAssoc m k = some fd → fd.name = k

theorem getFieldsAux_good (cs : List (String × String)) :
    ∀ (body : List EntityField) (acc : List (String × JDLField)),
      goodFieldMap acc → goodFieldMap (getFieldsAux cs body acc).1 := by
  intro body
  induction body with
  | nil => intro acc h; exact h
  | cons field rest ih =>
    intro acc hacc
    unfold getFieldsAux
    by_cases hid : (toLowerStr (lowerFirst field.name) == "id") = true
    · simp only [hid, if_true]
      exact ih acc hacc
    · have hid' : (toLowerStr (lowerFirst field.name) == "id") = false := by
        cases hh : toLowerStr (lowerFirst field.name) == "id" with
        | false => rfl
        | true => exact absurd hh hid
      simp only [hid', Bool.false_eq_true, if_false]
      refine ih _ ?_
      intro k fd hlk
      rw [lookupAssoc_insertAssoc] at hlk
      by_cases hk : k = lowerFirst field.name
      · rw [if_pos hk] at hlk
        cases hlk
        exact hk.symm
      · rw [if_neg hk] at hlk
        exact hacc k fd hlk

theorem getFieldsAux_present (cs : List (String × String)) (f : EntityField)
    (hid : ¬(toLowerStr (lowerFirst f.name) = "id")) :
    ∀ (body : List EntityField) (acc : List (String × JDLField)), f ∈ body →
      (lookupAssoc (getFieldsAux cs body acc).1 (lowerFirst f.name)).isSome = true := by
  intro body
  induction body with
  | nil => intro acc h; cases h
  | cons field rest ih =>
    intro acc hmem
    unfold getFieldsAux
    rcases List.mem_cons.mp hmem with hEq | hrest
    · subst hEq
      have hid' : (toLowerStr (lowerFirst f.name) == "id") = false := by
        cases hh : toLowerStr (lowerFirst f.name) == "id" with
        | false => rfl
        | true => exact absurd (beq_iff_eq.mp hh) hid
      simp only [hid', Bool.false_eq_true, if_false]
      refine getFieldsAux_isSome_mono cs _ rest _ ?_
      rw [lookupAssoc_insertAssoc, if_pos rfl]
      rfl
    · by_cases hidf : (toLowerStr (lowerFirst field.name) == "id") = true
      · simp only [hidf, if_true]
        exact ih acc hrest
      · have hid' : (toLowerStr (lowerFirst field.name) == "id") = false := by
          cases hh : toLowerStr (lowerFirst field.name) == "id" with
          | false => rfl
          | true => exact absurd hh hidf
        simp only [hid', Bool.false_eq_true, if_false]
        exact ih _ hrest

/-! Lemmas about the validation map built by `getValidations`. -/

/-- The value a validation record stores after the named-constant
resolution step of `getValidations`. -/
def resolvedValidationValue (cs : List (String × String)) (v : FieldValidation) :
    Option String :=
  if v.constant then v.value.bind (fun s => lookupAssoc cs s) else v.value

theorem getValidationsAux_lookup_keep (cs : List (String × String)) (K : String) :
    ∀ (vals : List FieldValidation) (acc : List (String × JDLValidation)),
      (∀ w ∈ vals, w.key ≠ K) →
      lookupAssoc (getValidationsAux cs vals acc).1 K = lookupAssoc acc K := by
  intro vals
  induction vals with
  | nil => intro acc _; rfl
  | cons w rest ih =>
    intro acc hkeys
    unfold getValidationsAux
    by_cases hc : w.constant <;>
    · simp only [hc, if_true, if_false]
      rw [ih _ (fun x hx => hkeys x (List.mem_cons_of_mem w hx))]
      rw [lookupAssoc_insertAssoc]
      exact if_neg (fun h => hkeys w (List.mem_cons_self w rest) h.symm)

theorem getValidationsAux_unique (cs : List (String × String)) (v : FieldValidation) :
    ∀ (vals : List FieldValidation) (acc : List (String × JDLValidation)),
      vals.filter (fun w => w.key == v.key) = [v] →
      lookupAssoc (getValidationsAux cs vals acc).1 v.key =
        some ⟨v.key, resolvedValidationValue cs v⟩ := by
  intro vals
  induction vals with
  | nil => intro acc h; cases h
  | cons w rest ih =>
    intro acc hfilter
    by_cases hw : (w.key == v.key) = true
    · rw [List.filter_cons, if_pos (by rw [hw])] at hfilter
      have hwv : w = v := (List.cons_eq_cons.mp hfilter).1
      have hrest : rest.filter (fun w => w.key == v.key) = [] :=
        (List.cons_eq_cons.mp hfilter).2
      have hkeys : ∀ x ∈ rest, x.key ≠ v.key := by
        intro x hx hxk
        have : x ∈ rest.filter (fun w => w.key == v.key) :=
          List.mem_filter.mpr ⟨hx, beq_iff_eq.mpr hxk⟩
        rw [hrest] at this
        cases this
      have hwv' : v = w := hwv.symm
      subst hwv'
      unfold getValidationsAux
      by_cases hc : v.constant <;>
      · simp only [hc, if_true, if_false]
        rw [getValidationsAux_lookup_keep cs v.key rest _ hkeys]
        rw [lookupAssoc_insertAssoc]
        simp [resolvedValidationValue, hc]
    · have hw' : (w.key == v.key) = false := by
        cases hh : w.key == v.key with
        | false => rfl
        | true => exact absurd hh hw
      rw [List.filter_cons, if_neg (by rw [hw']; exact Bool.false_ne_true)] at hfilter
      have hne : w.key ≠ v.key := by
        intro h
        exact hw (beq_iff_eq.mpr h)
      unfold getValidationsAux
      by_cases hc : w.constant <;>
      · simp only [hc, if_true, if_false]
        exact ih _ hfilter

/-! Lemmas about the options assembled by `fillOptions`. -/

/-- Recognizer for a binary option named `microservice`. -/
def isMicroserviceOption (o : JDLOption) : Bool :=
  match o with
  | JDLOption.binary n _ _ _ => n == "microservice"
  | _ => false

theorem filter_ite_single (c : Prop) [Decidable c] (o : JDLOption) :
    (if c then [o] else []).filter isMicroserviceOption =
      if c then [o].filter isMicroserviceOption else [] := by
  split <;> rfl

theorem fillUnaryOptions_no_micro (d : Document) :
    (fillUnaryOptions d).filter isMicroserviceOption = [] := by
  unfold fillUnaryOptions
  rw [List.filter_append, List.filter_append, List.filter_append]
  rw [filter_ite_single, filter_ite_single, filter_ite_single, filter_ite_single]
  simp [isMicroserviceOption]

theorem filter_filterMap_no_micro {α : Type} (l : List α) (f : α → Option JDLOption)
    (h : ∀ a o, f a = some o → isMicroserviceOption o = false) :
    (l.filterMap f).filter isMicroserviceOption = [] := by
  induction l with
  | nil => rfl
  | cons a rest ih =>
    rw [List.filterMap_cons]
    cases hfa : f a with
    | none => exact ih
    | some o =>
      rw [List.filter_cons, if_neg (by rw [h a o hfa]; exact Bool.false_ne_true)]
      exact ih

theorem binaryOptionMap_dto (d : Document) : binaryOptionMap d "dto" = d.dto := rfl

theorem binaryOptionMap_pagination (d : Document) :
    binaryOptionMap d "pagination" = d.pagination := rfl

theorem binaryOptionMap_service (d : Document) :
    binaryOptionMap d "service" = d.service := rfl

theorem binaryOptionMap_searchEngine (d : Document) :
    binaryOptionMap d "searchEngine" = d.searchEngine := rfl

theorem binaryOptionMap_microservice (d : Document) :
    binaryOptionMap d "microservice" = d.microservice := rfl

theorem binaryOptionMap_angularSuffix (d : Document) :
    binaryOptionMap d "angularSuffix" = d.angularSuffix := rfl

theorem binaryOptionMap_crf (d : Document) :
    binaryOptionMap d "clientRootFolder" = d.clientRootFolder := rfl

/-- Among the options built by `fillBinaryOptions`, the microservice-named
ones are exactly those coming from the document's microservice map, in map
order, whatever the application type. -/
theorem fillBinaryOptions_micro (appType : Option String) (d : Document) :
    (fillBinaryOptions appType d).filter isMicroserviceOption =
      d.microservice.map (fun e => JDLOption.binary "microservice" e.1 e.2.list e.2.excluded) := by
  unfold fillBinaryOptions binaryOptionNames
  simp only [List.flatMap_cons, List.flatMap_nil, List.append_nil, List.filter_append]
  rw [binaryOptionMap_dto, binaryOptionMap_pagination, binaryOptionMap_service,
    binaryOptionMap_searchEngine, binaryOptionMap_microservice,
    binaryOptionMap_angularSuffix, binaryOptionMap_crf]
  rw [filter_filterMap_no_micro d.dto _ (by
    intro a o ha
    by_cases hc : (appType == some MICROSERVICE && ("dto" == CLIENT_ROOT_FOLDER)) = true
    · rw [if_pos hc] at ha; cases ha
    · rw [if_neg hc] at ha; cases ha; rfl)]
  rw [filter_filterMap_no_micro d.pagination _ (by
    intro a o ha
    by_cases hc : (appType == some MICROSERVICE && ("pagination" == CLIENT_ROOT_FOLDER)) = true
    · rw [if_pos hc] at ha; cases ha
    · rw [if_neg hc] at ha; cases ha; rfl)]
  rw [filter_filterMap_no_micro d.service _ (by
    intro a o ha
    by_cases hc : (appType == some MICROSERVICE && ("service" == CLIENT_ROOT_FOLDER)) = true
    · rw [if_pos hc] at ha; cases ha
    · rw [if_neg hc] at ha; cases ha; rfl)]
  rw [filter_filterMap_no_micro d.searchEngine _ (by
    intro a o ha
    by_cases hc : (appType == some MICROSERVICE && ("searchEngine" == CLIENT_ROOT_FOLDER)) = true
    · rw [if_pos hc] at ha; cases ha
    · rw [if_neg hc] at ha; cases ha; rfl)]
  rw [filter_filterMap_no_micro d.angularSuffix _ (by
    intro a o ha
    by_cases hc : (appType == some MICROSERVICE && ("angularSuffix" == CLIENT_ROOT_FOLDER)) = true
    · rw [if_pos hc] at ha; cases ha
    · rw [if_neg hc] at ha; cases ha; rfl)]
  rw [filter_filterMap_no_micro d.clientRootFolder _ (by
    intro a o ha
    by_cases hc : (appType == some MICROSERVICE && ("clientRootFolder" == CLIENT_ROOT_FOLDER)) = true
    · rw [if_pos hc] at ha; cases ha
    · rw [if_neg hc] at ha; cases ha; rfl)]
  have hmm : ∀ e : String × OptionList,
      (appType == some MICROSERVICE && ("microservice" == CLIENT_ROOT_FOLDER)) = false := by
    intro e
    simp [CLIENT_ROOT_FOLDER]
  simp only [List.append_nil, List.nil_append]
  have : d.microservice.filterMap (fun entry =>
      if appType == some MICROSERVICE && ("microservice" == CLIENT_ROOT_FOLDER) then none
      else some (JDLOption.binary "microservice" entry.1 entry.2.list entry.2.excluded)) =
      d.microservice.map (fun entry =>
        JDLOption.binary "microservice" entry.1 entry.2.list entry.2.excluded) := by
    induction d.microservice with
    | nil => rfl
    | cons e rest ih =>
      rw [List.filterMap_cons, if_neg (by rw [hmm e]; exact Bool.false_ne_true), List.map_cons, ih]
  rw [this]
  refine List.filter_eq_self.mpr ?_
  intro o ho
  rcases List.mem_map.mp ho with ⟨e, _, rfl⟩
  rfl

/-! Projections of the full assembly outcome. -/

theorem parse_some (cfg : Configuration) (d : Document) (h : cfg.document = some d) :
    parseFromConfigurationObject cfg = Except.ok (assembleFromDocument d
      cfg.applicationType cfg.applicationName cfg.generatorVersion) := by
  unfold parseFromConfigurationObject
  rw [h]

theorem assemble_document_applications (doc : Document) (appType : Option String)
    (appName : String) (gv : Option String) :
    (assembleFromDocument doc appType appName gv).document.applications =
      doc.applications.map (mutateApplication gv) := by
  have h0 : (assembleFromDocument doc appType appName gv).document.applications =
      ((fillApplications gv doc).1).applications := rfl
  rw [h0, fillApplications_fst]

theorem assemble_document_microservice (doc : Document) (appType : Option String)
    (appName : String) (gv : Option String) :
    (assembleFromDocument doc appType appName gv).document.microservice =
      doc.microservice := by
  have h0 : (assembleFromDocument doc appType appName gv).document.microservice =
      ((fillApplications gv doc).1).microservice := rfl
  rw [h0, fillApplications_fst]

theorem assemble_document_entities (doc : Document) (appType : Option String)
    (appName : String) (gv : Option String) :
    (assembleFromDocument doc appType appName gv).document.entities =
      doc.entities.map (fun e => (fillClassAndItsFields doc.constants e).1) := by
  have h0 : (assembleFromDocument doc appType appName gv).document.entities =
      (fillClassesAndFieldsAux ((fillApplications gv doc).1).constants
        ((fillApplications gv doc).1).entities []).1 := rfl
  rw [h0, fillClassesAndFieldsAux_fst, fillApplications_fst]

theorem assemble_jdlEntities (doc : Document) (appType : Option String)
    (appName : String) (gv : Option String) :
    (assembleFromDocument doc appType appName gv).jdl.entities =
      addUserEntityIfNeedBe doc.relationships
        (fillClassesAndFieldsAux doc.constants doc.entities []).2 := by
  have h0 : (assembleFromDocument doc appType appName gv).jdl.entities =
      addUserEntityIfNeedBe ((fillApplications gv doc).1).relationships
        (fillClassesAndFieldsAux ((fillApplications gv doc).1).constants
          ((fillApplications gv doc).1).entities []).2 := rfl
  rw [h0, fillApplications_fst]

theorem assemble_jdlRelationships (doc : Document) (appType : Option String)
    (appName : String) (gv : Option String) :
    (assembleFromDocument doc appType appName gv).jdl.relationships =
      doc.relationships.map (fun r =>
        (processRelationship ((assembleFromDocument doc appType appName gv).jdl.entities) r).2) := by
  have h0 : (assembleFromDocument doc appType appName gv).jdl.relationships =
      (fillAssociations ((assembleFromDocument doc appType appName gv).jdl.entities)
        ((fillApplications gv doc).1).relationships).2 := rfl
  rw [h0, fillAssociations_snd, fillApplications_fst]

theorem assemble_document_relationships (doc : Document) (appType : Option String)
    (appName : String) (gv : Option String) :
    (assembleFromDocument doc appType appName gv).document.relationships =
      doc.relationships.map (fun r =>
        (processRelationship ((assembleFromDocument doc appType appName gv).jdl.entities) r).1) := by
  have h0 : (assembleFromDocument doc appType appName gv).document.relationships =
      (fillAssociations ((assembleFromDocument doc appType appName gv).jdl.entities)
        ((fillApplications gv doc).1).relationships).1 := rfl
  rw [h0, fillAssociations_fst, fillApplications_fst]

theorem assemble_document_entityNames (doc : Document) (appType : Option String)
    (appName : String) (gv : Option String) :
    ((assembleFromDocument doc appType appName gv).document.entities.map (·.name)) =
      doc.entities.map (·.name) := by
  rw [assemble_document_entities, List.map_map]
  exact List.map_congr_left (fun e _ => fillClassAndItsFields_fst_name doc.constants e)

/-- The microservice-named options of a full assembly: the entries of the
document's microservice map, then — exactly when the application type is
microservice and that map is empty — the synthesized global option. -/
theorem assemble_options_micro (doc : Document) (appType : Option String)
    (appName : String) (gv : Option String) :
    ((assembleFromDocument doc appType appName gv).jdl.options.filter isMicroserviceOption) =
      doc.microservice.map (fun e => JDLOption.binary "microservice" e.1 e.2.list e.2.excluded) ++
      (if appType == some MICROSERVICE && doc.microservice.length == 0 then
        [JDLOption.binary MICROSERVICE appName (doc.entities.map (·.name)) []]
      else []) := by
  have hproj : (assembleFromDocument doc appType appName gv).jdl.options =
      fillOptions appType appName
        (assembleFromDocument doc appType appName gv).document := rfl
  rw [hproj]
  unfold fillOptions
  rw [List.filter_append, List.filter_append, fillUnaryOptions_no_micro,
    fillBinaryOptions_micro, filter_ite_single]
  rw [assemble_document_microservice, assemble_document_entityNames]
  simp [isMicroserviceOption, MICROSERVICE]

/-! Concrete documents used to exercise the theorems. -/

/-- An option occurrence with empty lists. -/
def emptyOptionList : OptionList := ⟨[], []⟩

/-- A document with no declarations at all. -/
def emptyDocument : Document :=
  { applications := [], enums := [], entities := [], relationships := [],
    constants := [], noClient := emptyOptionList, noServer := emptyOptionList,
    noFluentMethod := emptyOptionList, filter := emptyOptionList,
    dto := [], pagination := [], service := [], searchEngine := [],
    microservice := [], angularSuffix := [], clientRootFolder := [] }

/-- Declared entity `A` with no explicit table name and no fields. -/
def entityA : DocEntity := ⟨"A", none, none, []⟩

/-- Declared entity `B` with no explicit table name and no fields. -/
def entityB : DocEntity := ⟨"B", none, none, []⟩

/-- A relationship from `A` to `B` with no injected-field name on either
side. -/
def relAB : DocRelationship :=
  ⟨"OneToMany", ⟨"A", none, none, none⟩, ⟨"B", none, none, none⟩⟩

/-- Document with entities `A`, `B` and the relationship `A` to `B`. -/
def docC1 : Document :=
  { emptyDocument with entities := [entityA, entityB], relationships := [relAB] }

/-! Claim theorems. -/

/-- C1: the spec says that when neither side of a relationship declares an
injected-field name, the from side's injected-field name defaults to the
lower-first form of the TO entity's name.  The code instead uses the FROM
entity's name (`document_parser.js` line 195).  Evaluating the embedded
code on the relationship `A` to `B` with neither side set: the assembled
injected-field name is `a` (lower-first of the from entity `A`), which
differs from `b`, the lower-first form of the to entity `B` that the spec
requires. -/
theorem c1_injected_field_default_behavior :
    ((assembleFromDocument docC1 none "app" none).jdl.relationships.map
      (fun r => r.injectedFieldInFrom)) = [some "a"] ∧
    lowerFirst "B" = "b" ∧
    some "a" ≠ some (lowerFirst "B") := by
  refine ⟨?_, rfl, by decide⟩
  rfl

/-- C3: in the field map assembled for a declared entity, a field whose
lower-first-normalized name equals `id` case-insensitively is dropped —
no entry is stored under that name — while every other field is stored
under its lower-first-normalized name (and the stored object carries that
name), independent of the field's type or validations. -/
theorem c3_id_dropped_and_lower_first (cs : List (String × String)) (e : DocEntity)
    (f : EntityField) (hf : f ∈ e.body) :
    (toLowerStr (lowerFirst f.name) = "id" →
      lookupAssoc ((fillClassAndItsFields cs e).2.fields) (lowerFirst f.name) = none) ∧
    (¬(toLowerStr (lowerFirst f.name) = "id") →
      ∃ fd, lookupAssoc ((fillClassAndItsFields cs e).2.fields) (lowerFirst f.name) = some fd ∧
        fd.name = lowerFirst f.name) := by
  rw [getFields_fields_eq]
  constructor
  · intro hid
    exact getFieldsAux_id_none cs _ hid e.body [] rfl
  · intro hid
    have hsome := getFieldsAux_present cs f hid e.body [] hf
    rcases Option.isSome_iff_exists.mp hsome with ⟨fd, hfd⟩
    refine ⟨fd, hfd, ?_⟩
    have hgood : goodFieldMap (getFieldsAux cs e.body []).1 := by
      refine getFieldsAux_good cs e.body [] ?_
      intro k fd' h
      simp [lookupAssoc] at h
    exact hgood _ _ hfd

/-- Field named `Id` (normalizes to `iD`, case-insensitively `id`). -/
def fieldId : EntityField := ⟨"Id", "Long", none, []⟩

/-- Field named `Email` (normalizes to `email`). -/
def fieldEmail : EntityField := ⟨"Email", "String", none, []⟩

/-- Field named `firstName` (already lower-first). -/
def fieldFirstName : EntityField := ⟨"firstName", "String", none, []⟩

/-- Entity with an id-like field and two ordinary fields. -/
def entityC3 : DocEntity := ⟨"Person", none, none, [fieldId, fieldEmail, fieldFirstName]⟩

/-- Witness for C3 at the concrete entity: the `Id` field is dropped, the
`Email` field is stored under `email`. -/
theorem c3_witness :
    lookupAssoc ((fillClassAndItsFields [] entityC3).2.fields) (lowerFirst "Id") = none ∧
    (∃ fd, lookupAssoc ((fillClassAndItsFields [] entityC3).2.fields) (lowerFirst "Email") =
      some fd ∧ fd.name = lowerFirst "Email") := by
  constructor
  · exact (c3_id_dropped_and_lower_first [] entityC3 fieldId (by decide)).1 (by decide)
  · exact (c3_id_dropped_and_lower_first [] entityC3 fieldEmail (by decide)).2 (by decide)

/-- C4: resolution of an application block's entity membership.  With the
wildcard marker in the member list, the result is all declared entity
names minus the exclusion list; without it, the given list minus the
exclusion list; and the assembled application at the block's index carries
exactly that (deduplicated) membership. -/
theorem c4_application_entities (doc : Document) (app : DocApplication) :
    ("*" ∈ app.entities.entityList →
      getApplicationEntities doc app =
        (doc.entities.map (·.name)).filter (fun n => !(app.entities.excluded.contains n))) ∧
    (¬("*" ∈ app.entities.entityList) →
      getApplicationEntities doc app =
        app.entities.entityList.filter (fun n => !(app.entities.excluded.contains n))) ∧
    (∀ (gv : Option String) (i : Nat), doc.applications[i]? = some app →
      ((fillApplications gv doc).2[i]?.map (fun a => a.entities)) =
        some (dedupKeepFirst (getApplicationEntities doc app))) := by
  refine ⟨?_, ?_, ?_⟩
  · intro hstar
    unfold getApplicationEntities
    have hc : app.entities.entityList.contains "*" = true := by
      exact List.elem_eq_true_of_mem hstar
    rw [if_pos hc]
    by_cases hex : app.entities.excluded.length ≠ 0
    · rw [if_pos hex]
    · rw [if_neg hex]
      push_neg at hex
      have hnil : app.entities.excluded = [] := List.length_eq_zero.mp hex
      rw [hnil]
      have hp : (fun (n : String) => !(([] : List String).contains n)) = fun _ => true := by
        funext n; rfl
      rw [hp, List.filter_true]
  · intro hstar
    unfold getApplicationEntities
    have hc : app.entities.entityList.contains "*" = false := by
      cases hh : app.entities.entityList.contains "*" with
      | false => rfl
      | true => exact absurd (List.mem_of_elem_eq_true hh) hstar
    rw [hc]
    simp only [Bool.false_eq_true, if_false]
    by_cases hex : app.entities.excluded.length ≠ 0
    · rw [if_pos hex]
    · rw [if_neg hex]
      push_neg at hex
      have hnil : app.entities.excluded = [] := List.length_eq_zero.mp hex
      rw [hnil]
      have hp : (fun (n : String) => !(([] : List String).contains n)) = fun _ => true := by
        funext n; rfl
      rw [hp, List.filter_true]
  · intro gv i hi
    rw [fillApplications_snd, List.getElem?_map, hi]
    show some (dedupKeepFirst (getApplicationEntities doc (mutateApplication gv app))) = _
    rw [getApplicationEntities_congr doc (mutateApplication gv app) app
      (mutateApplication_entities gv app)]

/-- The application block of the C4 example: wildcard members, `Foo`
excluded. -/
def appC4 : DocApplication := ⟨[], ⟨["*"], ["Foo"]⟩⟩

/-- The C4 document: declared entities `Foo`, `Bar`, `Baz` and the single
wildcard application block. -/
def docC4 : Document :=
  { emptyDocument with
    applications := [appC4]
    entities := [⟨"Foo", none, none, []⟩, ⟨"Bar", none, none, []⟩, ⟨"Baz", none, none, []⟩] }

/-- Witness for C4 at the spec's example: the resolved and assembled
membership is `[Bar, Baz]`. -/
theorem c4_witness :
    getApplicationEntities docC4 appC4 = ["Bar", "Baz"] ∧
    ((fillApplications none docC4).2[0]?.map (fun a => a.entities)) =
      some ["Bar", "Baz"] := by
  have h1 := (c4_application_entities docC4 appC4).1 (by decide)
  have h3 := (c4_application_entities docC4 appC4).2.2 none 0 rfl
  constructor
  · rw [h1]; rfl
  · rw [h3, h1]; rfl

/-- C5: a validation flagged as a named-constant reference stores the
literal resolved from the constants table, never the reference name; an
unflagged validation stores its value as given.  (The validation's key is
assumed to occur once in the field, matching the map semantics.) -/
theorem c5_constant_resolution (cs : List (String × String)) (field : EntityField)
    (v : FieldValidation)
    (huniq : field.validations.filter (fun w => w.key == v.key) = [v]) :
    (∀ name lit, v.constant = true → v.value = some name → lookupAssoc cs name = some lit →
      lookupAssoc (getValidations cs field).1 v.key = some ⟨v.key, some lit⟩) ∧
    (v.constant = false →
      lookupAssoc (getValidations cs field).1 v.key = some ⟨v.key, v.value⟩) := by
  have hbase : lookupAssoc (getValidations cs field).1 v.key =
      some ⟨v.key, resolvedValidationValue cs v⟩ :=
    getValidationsAux_unique cs v field.validations [] huniq
  constructor
  · intro name lit hc hval hlit
    rw [hbase]
    simp [resolvedValidationValue, hc, hval, hlit]
  · intro hc
    rw [hbase]
    simp [resolvedValidationValue, hc]

/-- The C5 example validation: `maxlength` flagged constant with reference
name `MAXLEN`. -/
def validationMaxlen : FieldValidation := ⟨"maxlength", some "MAXLEN", true⟩

/-- The C5 example field carrying that single validation. -/
def fieldC5 : EntityField := ⟨"name", "String", none, [validationMaxlen]⟩

/-- The C5 constants table: `MAXLEN = "50"`. -/
def constantsC5 : List (String × String) := [("MAXLEN", "50")]

/-- Witness for C5 at the spec's example: the stored value is `50`, not
`MAXLEN`. -/
theorem c5_witness :
    lookupAssoc (getValidations constantsC5 fieldC5).1 "maxlength" =
      some ⟨"maxlength", some "50"⟩ := by
  exact (c5_constant_resolution constantsC5 fieldC5 validationMaxlen (by decide)).1
    "MAXLEN" "50" rfl rfl (by decide)

/-- C7: the assemble operation fails with the missing-input error exactly
when the configuration carries no document; with a document present it
returns the fully assembled graph (so the error, when raised, precedes all
construction and no partial graph escapes). -/
theorem c7_missing_input (cfg : Configuration) :
    (parseFromConfigurationObject cfg = Except.error missingInputMessage ↔
      cfg.document = none) ∧
    (∀ d, cfg.document = some d →
      parseFromConfigurationObject cfg = Except.ok (assembleFromDocument d
        cfg.applicationType cfg.applicationName cfg.generatorVersion)) := by
  cases hd : cfg.document with
  | none =>
    have hp : parseFromConfigurationObject cfg = Except.error missingInputMessage := by
      unfold parseFromConfigurationObject
      rw [hd]
    refine ⟨⟨fun _ => rfl, fun _ => hp⟩, ?_⟩
    intro d hdd
    exact Option.noConfusion hdd
  | some d0 =>
    refine ⟨⟨?_, ?_⟩, ?_⟩
    · intro h
      rw [parse_some cfg d0 hd] at h
      exact Except.noConfusion h
    · intro h
      exact Option.noConfusion h
    · intro d hdd
      have hd0 : d0 = d := Option.some.inj hdd
      rw [← hd0]
      exact parse_some cfg d0 hd

/-- Witness for C7: a configuration without a document fails with the
missing-input error; one with the empty document succeeds. -/
theorem c7_witness :
    parseFromConfigurationObject ⟨none, none, "app", none⟩ =
      Except.error missingInputMessage ∧
    parseFromConfigurationObject ⟨some emptyDocument, none, "app", none⟩ =
      Except.ok (assembleFromDocument emptyDocument none "app" none) := by
  constructor
  · exact (c7_missing_input ⟨none, none, "app", none⟩).1.mpr rfl
  · exact (c7_missing_input ⟨some emptyDocument, none, "app", none⟩).2 emptyDocument rfl

/-- Relationship from `A` to `USER` (upper-case), neither side naming an
injected field. -/
def relAUSER : DocRelationship :=
  ⟨"ManyToOne", ⟨"A", none, none, none⟩, ⟨"USER", none, none, none⟩⟩

/-- C2 counterexample document: entity `A` and a relationship targeting
`USER`, with no declared `User` entity. -/
def docC2x : Document :=
  { emptyDocument with entities := [entityA], relationships := [relAUSER] }

/-- C2 counterexample: the relationship to `USER` matches `User`
case-insensitively, no entity named `User` is declared, and the implicit
`User` entity is synthesized — but endpoint resolution is by exact name,
so this relationship's `to` endpoint does NOT resolve (it is `undefined`),
contradicting the claim's final clause that all case-insensitive `User`
relationships resolve their `User` endpoint. -/
theorem c2_counterexample :
    toLowerStr "USER" = "user" ∧
    (∀ e ∈ docC2x.entities, e.name ≠ "User") ∧
    lookupAssoc (assembleFromDocument docC2x none "app" none).jdl.entities "User" =
      some userEntity ∧
    ((assembleFromDocument docC2x none "app" none).jdl.relationships.map
      (fun r => r.«to»)) = [none] := by
  refine ⟨by decide, by decide, by decide, by decide⟩

/-- C2 (amended): if some relationship targets an entity named `User`
case-insensitively and no entity named exactly `User` is declared, then
the assembled graph contains the entity `User` with table name `jhi_user`
and an empty field mapping, installed after all declared entities (it is
the last installed entity) and before any relationship, so that every
relationship whose to-side name is exactly `User` resolves its `User`
endpoint.  (Relationships using another casing do not resolve, since
resolution is by exact name — this is the correction.) -/
theorem c2_user_entity_amended (doc : Document) (appType : Option String)
    (appName : String) (gv : Option String) (out : AssembleOutcome)
    (hout : parseFromConfigurationObject ⟨some doc, appType, appName, gv⟩ = Except.ok out)
    (hrel : ∃ r ∈ doc.relationships, toLowerStr r.«to».name = "user")
    (hnouser : ∀ e ∈ doc.entities, e.name ≠ "User") :
    lookupAssoc out.jdl.entities "User" = some userEntity ∧
    out.jdl.entities.getLast? = some ("User", userEntity) ∧
    (∀ (i : Nat) (r : DocRelationship), doc.relationships[i]? = some r →
      r.«to».name = "User" →
      (out.jdl.relationships[i]?.map (fun jr => jr.«to»)) = some (some userEntity)) := by
  have hout' : out = assembleFromDocument doc appType appName gv := by
    rw [parse_some ⟨some doc, appType, appName, gv⟩ doc rfl] at hout
    exact (Except.ok.inj hout).symm
  subst hout'
  have hnone : lookupAssoc (fillClassesAndFieldsAux doc.constants doc.entities []).2
      "User" = none :=
    fillClassesAndFieldsAux_lookup_none doc.constants "User" doc.entities [] hnouser rfl
  rcases hrel with ⟨r, hrmem, hrlow⟩
  have hfmem : r ∈ doc.relationships.filter (fun r => toLowerStr r.«to».name == "user") :=
    List.mem_filter.mpr ⟨hrmem, by rw [hrlow]; rfl⟩
  have hne : (doc.relationships.filter
      (fun r => toLowerStr r.«to».name == "user")).isEmpty = false := by
    cases hh : (doc.relationships.filter
        (fun r => toLowerStr r.«to».name == "user")).isEmpty with
    | false => rfl
    | true =>
      rw [List.isEmpty_iff.mp hh] at hfmem
      cases hfmem
  have hadd : addUserEntityIfNeedBe doc.relationships
      (fillClassesAndFieldsAux doc.constants doc.entities []).2 =
      (fillClassesAndFieldsAux doc.constants doc.entities []).2 ++ [("User", userEntity)] := by
    unfold addUserEntityIfNeedBe
    have hcond : (!(doc.relationships.filter
        (fun r => toLowerStr r.«to».name == "user")).isEmpty &&
        (lookupAssoc (fillClassesAndFieldsAux doc.constants doc.entities []).2
          "User").isNone) = true := by
      rw [hne, hnone]
      rfl
    rw [if_pos hcond]
    exact insertAssoc_of_fresh _ "User" userEntity hnone
  have hlook : lookupAssoc ((fillClassesAndFieldsAux doc.constants doc.entities []).2 ++
      [("User", userEntity)]) "User" = some userEntity := by
    rw [lookupAssoc_append_fresh _ "User" "User" userEntity hnone, if_pos rfl]
  refine ⟨?_, ?_, ?_⟩
  · rw [assemble_jdlEntities, hadd]
    exact hlook
  · rw [assemble_jdlEntities, hadd, List.getLast?_concat]
  · intro i r' hir hname
    rw [assemble_jdlRelationships, List.getElem?_map, hir]
    show some ((processRelationship
      ((assembleFromDocument doc appType appName gv).jdl.entities) r').2.«to») =
      some (some userEntity)
    rw [processRelationship_snd_to, hname, assemble_jdlEntities, hadd, hlook]

/-- Relationship from `A` to `User` (exact casing). -/
def relAUserExact : DocRelationship :=
  ⟨"ManyToOne", ⟨"A", none, none, none⟩, ⟨"User", none, none, none⟩⟩

/-- Witness document for the amended C2. -/
def docC2w : Document :=
  { emptyDocument with entities := [entityA], relationships := [relAUserExact] }

/-- Witness for the amended C2 at a concrete document: the `User` entity
is synthesized last and the exactly-named relationship resolves. -/
theorem c2_amended_witness :
    lookupAssoc (assembleFromDocument docC2w none "app" none).jdl.entities "User" =
      some userEntity ∧
    (assembleFromDocument docC2w none "app" none).jdl.entities.getLast? =
      some ("User", userEntity) ∧
    ((assembleFromDocument docC2w none "app" none).jdl.relationships[0]?.map
      (fun jr => jr.«to»)) = some (some userEntity) := by
  have h := c2_user_entity_amended docC2w none "app" none
    (assembleFromDocument docC2w none "app" none) rfl
    ⟨relAUserExact, by decide, by decide⟩ (by decide)
  exact ⟨h.1, h.2.1, h.2.2 0 relAUserExact rfl rfl⟩

/-- C6: with application type microservice and an empty microservice map,
the assembled graph holds exactly one binary microservice option — value
the application name, targets all declared entity names; otherwise no
global option is synthesized and the microservice-named options are
exactly the document's own microservice entries. -/
theorem c6_microservice_option (doc : Document) (appType : Option String)
    (appName : String) (gv : Option String) (out : AssembleOutcome)
    (hout : parseFromConfigurationObject ⟨some doc, appType, appName, gv⟩ = Except.ok out) :
    (appType = some MICROSERVICE → doc.microservice = [] →
      out.jdl.options.filter isMicroserviceOption =
        [JDLOption.binary MICROSERVICE appName (doc.entities.map (·.name)) []]) ∧
    (appType ≠ some MICROSERVICE ∨ doc.microservice ≠ [] →
      out.jdl.options.filter isMicroserviceOption =
        doc.microservice.map (fun e =>
          JDLOption.binary "microservice" e.1 e.2.list e.2.excluded)) := by
  have hout' : out = assembleFromDocument doc appType appName gv := by
    rw [parse_some ⟨some doc, appType, appName, gv⟩ doc rfl] at hout
    exact (Except.ok.inj hout).symm
  subst hout'
  constructor
  · intro hat hms
    rw [assemble_options_micro, hms]
    have hcond : ((appType == some MICROSERVICE) &&
        (([] : List (String × OptionList)).length == 0)) = true := by
      rw [hat]
      rfl
    rw [if_pos hcond, List.map_nil, List.nil_append]
  · intro hor
    rw [assemble_options_micro]
    have hcond : ((appType == some MICROSERVICE) && (doc.microservice.length == 0)) = false := by
      rcases hor with h | h
      · have happ : (appType == some MICROSERVICE) = false := by
          cases hb : appType == some MICROSERVICE with
          | false => rfl
          | true => exact absurd (eq_of_beq hb) h
        rw [happ, Bool.false_and]
      · have hlen : (doc.microservice.length == 0) = false := by
          cases hb : doc.microservice.length == 0 with
          | false => rfl
          | true => exact absurd (List.length_eq_zero.mp (eq_of_beq hb)) h
        rw [hlen, Bool.and_false]
    rw [if_neg (by rw [hcond]; exact Bool.false_ne_true), List.append_nil]

/-- The C6 example document: declared entities `Invoice` and `Line`,
nothing else. -/
def docC6 : Document :=
  { emptyDocument with
    entities := [⟨"Invoice", none, none, []⟩, ⟨"Line", none, none, []⟩] }

/-- Witness for C6 at the spec's example: one global microservice option
valued `invoicing` over `[Invoice, Line]`. -/
theorem c6_witness :
    (assembleFromDocument docC6 (some "microservice") "invoicing" none).jdl.options.filter
      isMicroserviceOption =
      [JDLOption.binary "microservice" "invoicing" ["Invoice", "Line"] []] := by
  have h := (c6_microservice_option docC6 (some "microservice") "invoicing" none
    (assembleFromDocument docC6 (some "microservice") "invoicing" none) rfl).1 rfl rfl
  rw [h]
  rfl

/-- C10: the assemble operation mutates its input document: a supplied
(non-empty) generator version is written into every application block's
config under `jhipsterVersion`; an entity with a falsy table name gets its
own name as table name; a relationship with neither injected-field name
set gets its from-side injected-field name written (to the lower-first
form of the from entity's name, as the code computes it). -/
theorem c10_document_mutation (doc : Document) (appType : Option String)
    (appName : String) (gv : Option String) (out : AssembleOutcome)
    (hout : parseFromConfigurationObject ⟨some doc, appType, appName, gv⟩ = Except.ok out) :
    (∀ v, gv = some v → v ≠ "" →
      ∀ app ∈ out.document.applications,
        lookupAssoc app.config "jhipsterVersion" = some v) ∧
    (∀ (i : Nat) (e : DocEntity), doc.entities[i]? = some e → strFalsy e.tableName = true →
      (out.document.entities[i]?.map (fun e' => e'.tableName)) = some (some e.name)) ∧
    (∀ (i : Nat) (r : DocRelationship), doc.relationships[i]? = some r →
      strFalsy r.«from».injectedfield = true → strFalsy r.«to».injectedfield = true →
      (out.document.relationships[i]?.map (fun r' => r'.«from».injectedfield)) =
        some (some (lowerFirst r.«from».name))) := by
  have hout' : out = assembleFromDocument doc appType appName gv := by
    rw [parse_some ⟨some doc, appType, appName, gv⟩ doc rfl] at hout
    exact (Except.ok.inj hout).symm
  subst hout'
  refine ⟨?_, ?_, ?_⟩
  · intro v hv hvne app happ
    rw [assemble_document_applications] at happ
    rcases List.mem_map.mp happ with ⟨a, _, rfl⟩
    subst hv
    have hemp : v.isEmpty = false := by
      cases hh : v.isEmpty with
      | false => rfl
      | true => exact absurd ((String.isEmpty_iff v).mp hh) hvne
    have hred : mutateApplication (some v) a =
        { a with config := insertAssoc a.config "jhipsterVersion" v } := by
      show (if v.isEmpty = true then a
        else { a with config := insertAssoc a.config "jhipsterVersion" v }) = _
      rw [hemp]
      simp
    rw [hred]
    show lookupAssoc (insertAssoc a.config "jhipsterVersion" v) "jhipsterVersion" = some v
    rw [lookupAssoc_insertAssoc, if_pos rfl]
  · intro i e hie hfalsy
    rw [assemble_document_entities, List.getElem?_map, hie]
    show some ((fillClassAndItsFields doc.constants e).1.tableName) = some (some e.name)
    rw [fillClassAndItsFields_fst_tableName, if_pos hfalsy]
  · intro i r hir h1 h2
    rw [assemble_document_relationships, List.getElem?_map, hir]
    show some ((processRelationship
      ((assembleFromDocument doc appType appName gv).jdl.entities) r).1.«from».injectedfield) =
      some (some (lowerFirst r.«from».name))
    rw [(processRelationship_injected _ r h1 h2).1]

/-- The application block of the C10 witness. -/
def appC10 : DocApplication := ⟨[("baseName", "toto")], ⟨[], []⟩⟩

/-- The C10 witness document: one application, entities `A`, `B` (no table
names) and the injected-field-less relationship `A` to `B`. -/
def docC10 : Document :=
  { emptyDocument with
    applications := [appC10]
    entities := [entityA, entityB]
    relationships := [relAB] }

/-- Witness for C10 at a concrete document and generator version: the
config gains `jhipsterVersion`, the entity gains its table name, and the
relationship gains its from-side injected-field name. -/
theorem c10_witness :
    lookupAssoc (mutateApplication (some "5.0.1") appC10).config "jhipsterVersion" =
      some "5.0.1" ∧
    ((assembleFromDocument docC10 none "app" (some "5.0.1")).document.entities[0]?.map
      (fun e' => e'.tableName)) = some (some "A") ∧
    ((assembleFromDocument docC10 none "app" (some "5.0.1")).document.relationships[0]?.map
      (fun r' => r'.«from».injectedfield)) = some (some "a") := by
  have h := c10_document_mutation docC10 none "app" (some "5.0.1")
    (assembleFromDocument docC10 none "app" (some "5.0.1")) rfl
  refine ⟨?_, ?_, ?_⟩
  · exact h.1 "5.0.1" rfl (by decide) (mutateApplication (some "5.0.1") appC10) (by decide)
  · exact h.2.1 0 entityA rfl (by decide)
  · exact h.2.2 0 relAB rfl (by decide) (by decide)

/-- A token of the catalog whose literal pattern matches the generic
identifier pattern — the keyword kinds the disambiguation scheme targets. -/
def isNameLikeKeyword (t : TokenType) : Bool :=
  match t.pattern with
  | TokenPattern.str s => namePatternTest s
  | _ => false

/-- C8: every keyword kind of the catalog whose literal pattern textually
matches the generic-identifier pattern has the `NAME` kind as its fallback
(`longer_alt`) and carries the `KEYWORD` category, and the `KEYWORD`
category token is itself a member of the `NAME` category (with `NAME`
fallback) — so a grammar position accepting `NAME` by category also
accepts every such keyword. -/
theorem c8_keyword_wiring :
    (∀ t ∈ jdlTokens, isNameLikeKeyword t = true →
      t.longerAlt = some "NAME" ∧ "KEYWORD" ∈ t.categories) ∧
    "NAME" ∈ keywordToken.categories ∧
    keywordToken.longerAlt = some "NAME" := by
  refine ⟨by decide, by decide, by decide⟩

/-- Witness for C8 at the `APPLICATION` keyword token: its fallback is
`NAME` and it is in the `KEYWORD` category. -/
theorem c8_witness :
    (createToken "APPLICATION" (TokenPattern.str "application") []).longerAlt =
      some "NAME" ∧
    "KEYWORD" ∈ (createToken "APPLICATION" (TokenPattern.str "application") []).categories :=
  (c8_keyword_wiring).1 (createToken "APPLICATION" (TokenPattern.str "application") [])
    (by decide) (by decide)

/-- The literal string patterns of the catalog, in registration order. -/
def catalogStringPatterns : List String :=
  jdlTokens.filterMap (fun t =>
    match t.pattern with
    | TokenPattern.str s => some s
    | _ => none)

/-- C9: tokenizing `applicationType` yields exactly one token, of the
`APPLICATION_TYPE` kind (never `APPLICATION` plus a trailing identifier);
no literal pattern that is a strict prefix of a later-registered literal
pattern exists in the catalog (longer keywords are registered first), and
in particular `APPLICATION` is registered after `APPLICATION_TYPE`. -/
theorem c9_longest_match :
    tokenize "applicationType" =
      Except.ok [{ kind := "APPLICATION_TYPE", image := "applicationType" }] ∧
    List.Pairwise (fun a b => ¬(a.data.isPrefixOf b.data ∧ a ≠ b)) catalogStringPatterns ∧
    jdlTokens.findIdx (fun t => t.name == "APPLICATION_TYPE") <
      jdlTokens.findIdx (fun t => t.name == "APPLICATION") := by
  refine ⟨rfl, by decide, by decide⟩

end JdlCore
